import Mathlib

/-!
Shallow embedding of the WhatsApp/AI bot (BotWhatsaap-Gemini-OpenAi).

The embedding models the five core components of the system: the inbound
aggregator (message buffers and debounce flush), the per-conversation
dispatcher (queue and lock discipline of handleQueue), the manual-message
correlator (syncManualMessageToOpenAI / handleManualMessage), the response
emitter (splitIntoHumanChunks and the self-echo registry botSentMessages),
and the two AI handlers (GeminiHandler / OpenAiHandler processMessage).

External effects (network calls to the AI backend, transport sends, log
lines) are reified as event values so that theorems can speak about what
calls are and are not made; time is modelled with explicit natural-number
timestamps where retention windows matter.
-/

namespace Bot

/-! ### AI handler data model (src/handlers/gemini_handler.ts) -/

/-- `AiResponse` interface: the result every handler resolves with. -/
structure AiResponse where
  text : String
  deriving Repr, DecidableEq

/-- A part of a Gemini candidate's content: `part.text` may be absent
(the TS code filters on `part.text` being truthy). -/
structure GeminiPart where
  text : Option String
  deriving Repr, DecidableEq

/-- One Gemini candidate: `candidate.content.parts`. -/
structure GeminiCandidate where
  parts : List GeminiPart
  deriving Repr, DecidableEq

/-- The outcome of `chatSession.sendMessage(message)`: either it throws
(modelled as `thrown`) or it resolves with a response whose `candidates`
field may be absent (`none`) or a list. -/
inductive GeminiSendOutcome where
  | thrown : GeminiSendOutcome
  | ok (candidates : Option (List GeminiCandidate)) : GeminiSendOutcome
  deriving Repr, DecidableEq

/-- Fixed apology string returned from the `catch` branch. -/
def geminiApology : String := "Lo siento, tuve un problema al procesar tu solicitud."

/-- Fixed clarification string returned when there is no candidate. -/
def geminiClarify : String := "No obtuve una respuesta clara. Por favor, intenta de nuevo."

/-- Join the texts of a candidate's parts as the TS code does:
`parts.filter(p => p.text).map(p => p.text).join('\n')`. -/
def joinPartTexts (parts : List GeminiPart) : String :=
  String.intercalate "\n" (parts.filterMap (fun p => p.text))

/-- `GeminiHandler.processMessage`, with the `sendMessage` call replaced by
its outcome.  The try/catch surrounds the send and the extraction; an
exception resolves (not rejects) with the apology text.  A missing or
empty candidate list resolves with the clarification text. -/
def geminiProcessMessage (outcome : GeminiSendOutcome) : AiResponse :=
  match outcome with
  | .thrown => ⟨geminiApology⟩
  | .ok candidates =>
    match candidates with
    | some (c :: _) => ⟨joinPartTexts c.parts⟩
    | some [] => ⟨geminiClarify⟩
    | none => ⟨geminiClarify⟩

/-! ### OpenAiHandler polling loop (src/handlers/gemini_handler.ts, second class) -/

/-- Run status as returned by `openai.beta.threads.runs.retrieve`. -/
inductive RunStatus where
  | completed | failed | cancelled | expired | inProgress | queued
  deriving Repr, DecidableEq

/-- The loop condition of `OpenAiHandler.processMessage`:
`runStatus.status !== 'completed' && runStatus.status !== 'failed'`. -/
def pollContinues (s : RunStatus) : Bool :=
  s ≠ RunStatus.completed && s ≠ RunStatus.failed

/-- The polling loop, fuel-bounded: `statusAt n` is the status observed by
the n-th retrieve (the retrieve before the loop is `statusAt 0`).  Returns
`some s` with the terminal status when the loop exits within `fuel`
iterations, `none` when the fuel is exhausted with the loop still running.
A result of `none` for every fuel means the concrete loop never
terminates. -/
def openAiPollLoop (statusAt : Nat → RunStatus) : Nat → Nat → Option RunStatus
  | n, 0 => if pollContinues (statusAt n) then none else some (statusAt n)
  | n, fuel + 1 =>
    if pollContinues (statusAt n) then openAiPollLoop statusAt (n + 1) fuel
    else some (statusAt n)

/-- `OpenAiHandler.processMessage` from the poll loop onward: polls until
the status is `completed` or `failed`, then answers with the failure text
or with the assistant text obtained from the thread. -/
def openAiAfterPoll (terminal : RunStatus) (assistantText : Option String) : AiResponse :=
  if terminal = RunStatus.failed then ⟨geminiApology⟩
  else
    match assistantText with
    | none => ⟨geminiClarify⟩
    | some t => ⟨t⟩

/-! ### Dispatcher data model (src/app.ts) -/

/-- The unit of work enqueued per conversation: the task carries the
combined burst text (the `ctx.body` of the task pushed in `mainFlow`'s
inactivity-timer callback; the `flowDynamic`/`state`/`provider` captures
are opaque to the properties here). -/
structure DispatchTask where
  body : String
  deriving Repr, DecidableEq

/-- The per-conversation slice of the global maps `userQueues` and
`userLocks` of `app.ts`.  `queue = none` models the absence of a map entry
(`userQueues.has(userId) = false`); `lock = none` models the absence of a
lock entry, and `userLocks.get(userId)` yields a falsy value in that
case. -/
structure ConvQueueState where
  queue : Option (List DispatchTask)
  lock : Option Bool
  deriving Repr, DecidableEq

/-- `userLocks.get(userId)` coerced to a boolean as JavaScript does
(`undefined` is falsy). -/
def lockHeld (s : ConvQueueState) : Bool := s.lock.getD false

/-- Trace event of one drain: a task was handed to
`processUserMessage` (the AI-backend processing), recording the value the
lock map holds while the processing runs. -/
inductive DrainEvent where
  | processed (t : DispatchTask) (lockDuringProcessing : Bool)
  deriving Repr, DecidableEq

/-- The `while (queue.length > 0)` loop of `handleQueue` in `app.ts`:
at each iteration the loop re-checks the lock and returns if it is held,
sets the lock to `true`, shifts the head task, processes it (success and
the catch branch behave identically with respect to queue and lock), and
in the `finally` block sets the lock back to `false`.  Fuel-bounded so the
definition reduces; `handleQueue` supplies `queue.length` as fuel, which
is always sufficient since each iteration shifts one task. -/
def drainLoop : Nat → List DispatchTask → Option Bool →
    List DrainEvent × List DispatchTask × Option Bool
  | _, [], lk => ([], [], lk)
  | 0, q, lk => ([], q, lk)
  | fuel + 1, t :: rest, lk =>
    if lk.getD false then ([], t :: rest, lk)
    else
      -- userLocks.set(userId, true); const task = queue.shift();
      -- processUserMessage runs with the lock map holding `true`;
      -- finally { userLocks.set(userId, false); }
      let lockWhileProcessing : Option Bool := some true
      let afterFinally : Option Bool := some false
      let rec' := drainLoop fuel rest afterFinally
      (DrainEvent.processed t (lockWhileProcessing.getD false) :: rec'.1,
       rec'.2.1, rec'.2.2)

/-- `handleQueue(userId)` from `app.ts`: returns immediately (deleting the
lock entry) when no queue exists; returns without touching anything when
the lock is held; otherwise drains the queue, and afterwards deletes both
the queue entry and the lock entry when the queue is empty and
unlocked. -/
def handleQueue (s : ConvQueueState) : List DrainEvent × ConvQueueState :=
  match s.queue with
  | none => ([], { queue := none, lock := none })
  | some q =>
    if lockHeld s then ([], s)
    else
      let r := drainLoop q.length q s.lock
      if r.2.1 = [] && !(r.2.2.getD false) then
        (r.1, { queue := none, lock := none })
      else
        (r.1, { queue := some r.2.1, lock := r.2.2 })

/-! ### Inbound aggregator (src/app.ts, mainFlow) -/

/-- The per-conversation slice of the aggregator's state in `app.ts`:
the `userMessageBuffers` entry (its `messages` array), the presence of a
`userActivityTimers` entry, and the `userQueues` entry the flush pushes
into. -/
structure AggState where
  buffer : Option (List String)
  timerActive : Bool
  queue : Option (List DispatchTask)
  deriving Repr, DecidableEq

/-- The `mainFlow.addAction` body of `app.ts` for one inbound client
message: create the buffer if absent, push the message body, and
clear-and-restart the inactivity timer. -/
def onInboundMessage (s : AggState) (text : String) : AggState :=
  { buffer := some ((s.buffer.getD []) ++ [text]),
    timerActive := true,
    queue := s.queue }

/-- The inactivity-timer callback of `mainFlow` in `app.ts`: if the
buffer exists and is non-empty, join its messages with `'\n\n'`, push one
task carrying the combined body onto the conversation's queue (creating
the queue entry if absent), then delete the buffer and the timer entry;
if the buffer is absent or empty, just delete the buffer and timer. -/
def onInactivityTimerFire (s : AggState) : AggState :=
  match s.buffer with
  | some msgs =>
    if msgs.length > 0 then
      let combinedMessageBody := String.intercalate "\n\n" msgs
      { buffer := none, timerActive := false,
        queue := some ((s.queue.getD []) ++ [⟨combinedMessageBody⟩]) }
    else
      { buffer := none, timerActive := false, queue := s.queue }
  | none => { buffer := none, timerActive := false, queue := s.queue }

end Bot

namespace Bot

/-! ### Supporting lemmas -/

theorem drainLoop_unlocked (q : List DispatchTask) (lk : Option Bool)
    (hlk : lk.getD false = false) :
    drainLoop q.length q lk =
      (q.map (fun t => DrainEvent.processed t true), [],
       if q = [] then lk else some false) := by
  induction q generalizing lk with
  | nil => simp [drainLoop]
  | cons t rest ih =>
    simp only [List.length_cons, drainLoop, hlk, Bool.false_eq_true,
      if_false, List.map_cons]
    rw [ih (some false) rfl]
    by_cases h : rest = [] <;> simp [h]

theorem foldl_onInbound_buffer (ms : List String) (b : List String)
    (tm : Bool) (q : Option (List DispatchTask)) :
    ms.foldl onInboundMessage ⟨some b, tm, q⟩ =
      ⟨some (b ++ ms), if ms = [] then tm else true, q⟩ := by
  induction ms generalizing b tm with
  | nil => simp
  | cons m rest ih =>
    simp only [List.foldl_cons, onInboundMessage]
    rw [show (some b).getD [] = b from rfl]
    rw [ih (b ++ [m]) true]
    simp

/-! ### Retry/backoff of the AI backend call (getAssistantResponse) -/

/-- `MAX_RETRIES` constant of the retry variant. -/
def MAX_RETRIES : Nat := 3

/-- Trace events of `getAssistantResponse`: an attempted `toAsk` call
(raced against the 60s timeout), and a backoff sleep of the given
duration in milliseconds. -/
inductive RetryEvent where
  | attempt (n : Nat)
  | wait (ms : Nat)
  deriving Repr, DecidableEq

/-- The `for (attempt = 1; attempt <= MAX_RETRIES; attempt++)` loop of
`getAssistantResponse`: `outcome n` is the result of the n-th
`Promise.race([toAsk, timeout])` — `some response` when it resolves with a
string, `none` when it throws (a timeout, a concurrency conflict such as
"another run is active", or any other error; the catch branch does not
distinguish).  On failure with `attempt < MAX_RETRIES`, sleep
`Math.pow(2, attempt) * 1000` ms and try again; after the last attempt the
accumulated error is rethrown (result `none`).  The second argument is
the current attempt number, the third the remaining loop iterations. -/
def getAssistantResponseAttempts (outcome : Nat → Option String) :
    Nat → Nat → List RetryEvent × Option String
  | _, 0 => ([], none)
  | n, r + 1 =>
    match outcome n with
    | some resp => ([.attempt n], some resp)
    | none =>
      if n < MAX_RETRIES then
        let rest := getAssistantResponseAttempts outcome (n + 1) r
        (.attempt n :: .wait (2 ^ n * 1000) :: rest.1, rest.2)
      else ([.attempt n], none)

/-- `getAssistantResponse` of the retry variant: a `responseCache` hit
returns immediately; otherwise the attempt loop runs starting at attempt
1 with `MAX_RETRIES` iterations.  (The cache-store bookkeeping on success
does not affect the retry trace and is omitted.) -/
def getAssistantResponse (cached : Option String)
    (outcome : Nat → Option String) : List RetryEvent × Option String :=
  match cached with
  | some resp => ([], some resp)
  | none => getAssistantResponseAttempts outcome 1 MAX_RETRIES

/-- The attempt events of a retry trace. -/
def retryAttempts (evs : List RetryEvent) : List Nat :=
  evs.filterMap (fun e => match e with | .attempt n => some n | _ => none)

/-- The backoff durations of a retry trace, in order. -/
def retryWaits (evs : List RetryEvent) : List Nat :=
  evs.filterMap (fun e => match e with | .wait m => some m | _ => none)

/-! ### Self-echo registry (botSentMessages, src/app.ts) -/

/-- The `botSentMessages` set of `app.ts` with its scheduled evictions
reified: the code inserts `msgResult.key.id` into a `Set` and schedules
`setTimeout(() => delete, 300000)`, so each identifier is a member from
insertion until 300000 ms later.  The registry is modelled as the list of
`(identifier, evictionTime)` pairs of the not-yet-evicted inserts. -/
def botRecordSent (reg : List (String × Nat)) (id : String) (now : Nat) :
    List (String × Nat) :=
  (id, now + 300000) :: reg

/-- `botSentMessages.has(messageId)` at time `t`: some recorded entry for
this identifier whose scheduled eviction has not yet fired. -/
def botSentHas (reg : List (String × Nat)) (id : String) (t : Nat) : Bool :=
  reg.any (fun p => p.1 = id && t < p.2)

/-- A Baileys `messages.upsert` event item, with the fields the listener
of `app.ts` reads: `msg.message` truthiness, `msg.key.remoteJid`,
`msg.key.fromMe`, the result of `extractTextFromMessage`, and
`msg.key.id`. -/
structure UpsertMsg where
  hasMessage : Bool
  remoteJid : String
  fromMe : Bool
  body : Option String
  msgId : String
  deriving Repr, DecidableEq

/-- What the `messages.upsert` listener of `app.ts` does with one
message. -/
inductive UpsertAction where
  /-- `continue`: no message content / status broadcast / no text /
  inbound message (handled by the flow, not this listener). -/
  | skipped
  /-- the identifier is in `botSentMessages`: bot's own send, ignored. -/
  | selfEcho
  /-- manual message with a thread binding:
  `syncManualMessageToOpenAI(jid, body)` is invoked. -/
  | syncManual (body : String)
  /-- manual message without a thread binding: warning logged, dropped. -/
  | warnNoThread
  deriving Repr, DecidableEq

/-- The per-message body of the `messages.upsert` listener in `app.ts`
(`threads` is the set of jids with a `clientThreadIds` entry, `t` the
current time for the `botSentMessages` lookup). -/
def upsertHandleMsg (reg : List (String × Nat)) (threads : List String)
    (t : Nat) (m : UpsertMsg) : UpsertAction :=
  if !m.hasMessage || m.remoteJid = "status@broadcast" then .skipped
  else
    match m.body with
    | none => .skipped
    | some b =>
      if m.fromMe then
        if botSentHas reg m.msgId t then .selfEcho
        else if m.remoteJid ∈ threads then .syncManual b
        else .warnNoThread
      else .skipped

/-! ### Manual-message correlator (src/app.ts and the buffered variant) -/

/-- The conversation-scoped state the manual-sync path of `app.ts` runs
against: the `clientThreadIds` binding map (keyed by the full jid in
`app.ts`), and — for the same conversation — the dispatcher's `userLocks`
entry, the aggregator's `userMessageBuffers` entry and the `userQueues`
entry, all of which live in the same process. -/
structure SyncState where
  clientThreadIds : List (String × String)
  userLock : Option Bool
  userBuffer : Option (List String)
  queue : Option (List DispatchTask)
  deriving Repr, DecidableEq

/-- Calls the manual-sync path makes against the AI backend and the log. -/
inductive SyncEvent where
  /-- warning logged: no thread binding, message dropped. -/
  | warnNoThread
  /-- `openai.beta.threads.messages.create(threadId, {role:'user', ...})`
  (the synthetic system-note annotation of the buffered variant). -/
  | appendUser (content : String)
  /-- `openai.beta.threads.messages.create(threadId, {role:'assistant',
  content})`. -/
  | appendAssistant (content : String)
  deriving Repr, DecidableEq

/-- `clientThreadIds.get(jid)` of `app.ts` (a `Map` keyed by the full
jid), as an association-list lookup. -/
def clientThreadsGet (m : List (String × String)) (jid : String) :
    Option String :=
  (m.find? (fun p => p.1 = jid)).map (fun p => p.2)

/-- `syncManualMessageToOpenAI(jid, messageContent)` from `app.ts`: look
up `clientThreadIds.get(jid)`; if absent, log a warning and return
`false`; if present, append the content to the thread with role
`assistant` and return `true`.  The function never reads or writes
`userLocks`, `userMessageBuffers` or `userQueues`, which is why the
returned state is the input state. -/
def syncManualMessageToOpenAI (st : SyncState) (jid content : String) :
    Bool × List SyncEvent × SyncState :=
  match clientThreadsGet st.clientThreadIds jid with
  | none => (false, [.warnNoThread], st)
  | some _ => (true, [.appendAssistant content], st)

/-- `jid.split('@')[0] || jid` (the `getShortUserId` of the buffered
variant, used to key `clientThreadMap`). -/
def getShortUserId (jid : String) : String :=
  let head := String.mk (jid.toList.takeWhile (fun c => c ≠ '@'))
  if head = "" then jid else head

/-- `getThreadId(jid)` of the buffered correlator variant:
`clientThreadMap[getShortUserId(jid)] || null`. -/
def getThreadId (tm : List (String × String)) (jid : String) :
    Option String :=
  (tm.find? (fun p => p.1 = getShortUserId jid)).map (fun p => p.2)

/-- The system-note annotation the buffered variant prepends. -/
def manualSyncNote : String :=
  "[NOTA DEL SISTEMA: Un operador humano ha respondido directamente al cliente con el siguiente mensaje]"

/-- `syncManualMessageToOpenAI` of the buffered correlator variant
(part_001): absent binding warns and returns `false`; present binding
appends the system-note as a user-role message and then the manual
content as an assistant-role message.  Like the `app.ts` version, it
consults no lock. -/
def syncManualWithSystemNote (tm : List (String × String))
    (jid content : String) : Bool × List SyncEvent :=
  match getThreadId tm jid with
  | none => (false, [.warnNoThread])
  | some _ => (true, [.appendUser manualSyncNote, .appendAssistant content])

/-- The debounce-timer callback of `handleManualMessage` (the buffered
correlator variant): if the manual buffer is non-empty, join its messages
with `'\n\n'` and hand them to the sync path; in every case delete the
manual buffer (and its timer).  The result pairs the backend calls made
with the buffer after the flush. -/
def handleManualMessageFlush (tm : List (String × String)) (jid : String)
    (buffer : Option (List String)) :
    List SyncEvent × Option (List String) :=
  match buffer with
  | some msgs =>
    if msgs.length > 0 then
      ((syncManualWithSystemNote tm jid
        (String.intercalate "\n\n" msgs)).2, none)
    else ([], none)
  | none => ([], none)

/-! ### Queue backpressure (welcomeFlow of the bounded variant) -/

/-- `MAX_QUEUE_SIZE` of the bounded variant. -/
def MAX_QUEUE_SIZE : Nat := 10

/-- The user-visible please-wait notice sent on rejection. -/
def queueFullNotice : String :=
  "Estoy procesando varios de tus mensajes anteriores. Dame un momentito, por favor."

/-- What `welcomeFlow`'s action does with one inbound message. -/
inductive WelcomeOutcome where
  | rejected (notice : String)
  | enqueued
  deriving Repr, DecidableEq

/-- The queue-handling part of `welcomeFlow.addAction` in the bounded
variant: create the queue entry if absent; if the queue already holds
`MAX_QUEUE_SIZE` or more tasks, send the please-wait notice and return
without enqueueing; otherwise push the task. -/
def welcomeFlowEnqueue (queues : Option (List DispatchTask))
    (t : DispatchTask) : WelcomeOutcome × List DispatchTask :=
  let q := queues.getD []
  if q.length ≥ MAX_QUEUE_SIZE then (.rejected queueFullNotice, q)
  else (.enqueued, q ++ [t])

/-! ### Response splitting (splitIntoHumanChunks, bounded variant)

The function is embedded over `List Char` (the JS string's characters),
with `String.mk` at the boundary.  The two regexes are implemented with
their JavaScript semantics: `/[\n\r]{2,}/` splits on maximal runs of at
least two newline/carriage-return characters, and
`/[^.!?]+(?:[.!?]+["']?\s*|$)/g` matches a maximal run of
non-terminators followed either by a terminator run with an optional
quote and trailing whitespace, or by the end of the string; positions
where no match can start (leading terminators) are skipped.  `.` in
`/【.*?】[ ]?/g` does not match line terminators. -/

/-- `MAX_MESSAGE_LENGTH` of the bounded variant. -/
def MAX_MESSAGE_LENGTH : Nat := 250

/-- `MAX_LINES_PER_MESSAGE` of the bounded variant. -/
def MAX_LINES_PER_MESSAGE : Nat := 4

/-- `CHARS_PER_LINE_ESTIMATE` of the bounded variant. -/
def CHARS_PER_LINE_ESTIMATE : Nat := 60

/-- `Math.ceil(a / b)` on naturals. -/
def jsCeilDiv (a b : Nat) : Nat := (a + b - 1) / b

/-- The characters JavaScript's `\s` and `trim()` treat as whitespace
(ASCII portion; the non-ASCII space characters cannot occur in the
inputs considered here). -/
def isJsWS (c : Char) : Bool :=
  c = ' ' || c = '\t' || c = '\n' || c = '\r' || c = '\x0b' || c = '\x0c'

/-- `String.prototype.trim()`. -/
def jsTrim (cs : List Char) : List Char :=
  ((cs.dropWhile isJsWS).reverse.dropWhile isJsWS).reverse

/-- A line terminator for the purposes of `/[\n\r]{2,}/` and of `.` not
matching them. -/
def isNL (c : Char) : Bool := c = '\n' || c = '\r'

/-- Sentence-terminator class `[.!?]`. -/
def isTerm (c : Char) : Bool := c = '.' || c = '!' || c = '?'

/-- Scan for the lazy `.*?】` part of `CLEAN_REGEX` after a `【`: consume
up to the first `】` (failing on a line terminator or the end, where `.`
cannot match), then drop one following space (`[ ]?`). -/
def cleanConsume : List Char → Option (List Char)
  | [] => none
  | c :: rest =>
    if c = '】' then
      some (match rest with
            | ' ' :: restMore => restMore
            | _ => rest)
    else if isNL c then none
    else cleanConsume rest

/-- `replace(CLEAN_REGEX, "")` with `CLEAN_REGEX = /【.*?】[ ]?/g`:
every (lazily matched) `【...】` segment plus one optional following
space is removed; a `【` with no closing `】` on the same line stays. -/
def cleanAux : Nat → List Char → List Char
  | _, [] => []
  | 0, cs => cs
  | fuel + 1, c :: rest =>
    if c = '【' then
      match cleanConsume rest with
      | some rest' => cleanAux fuel rest'
      | none => c :: cleanAux fuel rest
    else c :: cleanAux fuel rest

/-- `split(/[\n\r]{2,}/)`: the accumulator holds the current segment
reversed; a maximal run of at least two newline/CR characters separates
segments. -/
def splitParasAux : Nat → List Char → List Char → List (List Char)
  | _, [], acc => [acc.reverse]
  | 0, cs, acc => [acc.reverse ++ cs]
  | fuel + 1, c :: rest, acc =>
    if isNL c && (match rest with | r :: _ => isNL r | [] => false) then
      acc.reverse :: splitParasAux fuel ((c :: rest).dropWhile isNL) []
    else splitParasAux fuel rest (c :: acc)

/-- After the mandatory `[^.!?]+` of the sentence regex: consume the
terminator run `[.!?]+`, an optional quote `["']?` and trailing
whitespace `\s*`; returns the consumed suffix of the match and the
remainder of the string. -/
def sentenceTail (cs : List Char) : List Char × List Char :=
  let t2 := cs.takeWhile isTerm
  let r2 := cs.dropWhile isTerm
  match r2 with
  | c :: rest =>
    if c = '"' || c = '\'' then
      (t2 ++ [c] ++ rest.takeWhile isJsWS, rest.dropWhile isJsWS)
    else (t2 ++ r2.takeWhile isJsWS, r2.dropWhile isJsWS)
  | [] => (t2, [])

/-- `match(/[^.!?]+(?:[.!?]+["']?\s*|$)/g)`: the list of matches, empty
when the regex matches nowhere (the JS `match` returns `null` then). -/
def sentencesAux : Nat → List Char → List (List Char)
  | _, [] => []
  | 0, _ => []
  | fuel + 1, c :: rest =>
    if isTerm c then sentencesAux fuel rest
    else
      let t1 := (c :: rest).takeWhile (fun x => !(isTerm x))
      let r1 := (c :: rest).dropWhile (fun x => !(isTerm x))
      match r1 with
      | [] => [t1]
      | _ :: _ =>
        let tl := sentenceTail r1
        (t1 ++ tl.1) :: sentencesAux fuel tl.2

/-- The per-paragraph body of the `for (const p of majorParagraphs)`
loop, sentence-accumulation included: a short-enough paragraph is one
chunk; an oversize one is split into sentences, which are accumulated
into chunks while the length and estimated-line budgets permit; a
sentence that alone exceeds a budget is pushed as its own chunk. -/
def processParagraph (p : List Char) : List (List Char) :=
  let paragraphContent := jsTrim p
  if paragraphContent = [] then []
  else
    let estimatedLinesInParagraph :=
      jsCeilDiv paragraphContent.length CHARS_PER_LINE_ESTIMATE
    if paragraphContent.length ≤ MAX_MESSAGE_LENGTH &&
        estimatedLinesInParagraph ≤ MAX_LINES_PER_MESSAGE then
      [paragraphContent]
    else
      let sentences :=
        match sentencesAux (paragraphContent.length + 1) paragraphContent with
        | [] => [paragraphContent]
        | ss => ss
      let step := fun (st : List (List Char) × List Char) sentenceRaw =>
        let sentence := jsTrim sentenceRaw
        if sentence = [] then st
        else
          let sentenceEstimatedLines :=
            jsCeilDiv sentence.length CHARS_PER_LINE_ESTIMATE
          if st.2 = [] then
            if sentence.length > MAX_MESSAGE_LENGTH ||
                sentenceEstimatedLines > MAX_LINES_PER_MESSAGE then
              (st.1 ++ [sentence], [])
            else (st.1, sentence)
          else
            let potentialChunk := st.2 ++ ' ' :: sentence
            let potentialChunkEstimatedLines :=
              jsCeilDiv potentialChunk.length CHARS_PER_LINE_ESTIMATE
            if potentialChunk.length ≤ MAX_MESSAGE_LENGTH &&
                potentialChunkEstimatedLines ≤ MAX_LINES_PER_MESSAGE then
              (st.1, potentialChunk)
            else
              if sentence.length > MAX_MESSAGE_LENGTH ||
                  sentenceEstimatedLines > MAX_LINES_PER_MESSAGE then
                (st.1 ++ [st.2, sentence], [])
              else (st.1 ++ [st.2], sentence)
      let r := sentences.foldl step ([], [])
      if r.2 = [] then r.1 else r.1 ++ [r.2]

/-- `splitIntoHumanChunks(text)` of the bounded variant: trim, strip
`CLEAN_REGEX`, return `[]` for an empty result, split into major
paragraphs on double line breaks, process each paragraph, and keep the
non-empty chunks. -/
def splitIntoHumanChunks (text : String) : List String :=
  let t0 := jsTrim text.toList
  let t := cleanAux (t0.length + 1) t0
  if t = [] then []
  else
    let majorParagraphs := splitParasAux (t.length + 1) t []
    let chunks := majorParagraphs.foldl
      (fun acc p => acc ++ processParagraph p) []
    (chunks.filter (fun c => c.length > 0)).map String.mk

end Bot

/-- C1: per-conversation mutual exclusion in `handleQueue` (`app.ts`).
For a conversation whose queue entry exists: (i) a drain invoked while the
lock is held processes no task and changes nothing (so a second concurrent
drain cannot process a task for the same conversation); (ii) a drain
invoked while unlocked processes every task with the lock map holding
`true` throughout each task's processing, processes them in FIFO order,
and (iii) afterwards the queue entry (and the lock entry) is deleted, the
queue being empty and unlocked. -/
theorem C1_handleQueue_lock_invariant (s : Bot.ConvQueueState)
    (q : List Bot.DispatchTask) (hq : s.queue = some q) :
    (Bot.lockHeld s = true → Bot.handleQueue s = ([], s)) ∧
    (Bot.lockHeld s = false →
      (Bot.handleQueue s).1 =
        q.map (fun t => Bot.DrainEvent.processed t true) ∧
      (∀ t b, Bot.DrainEvent.processed t b ∈ (Bot.handleQueue s).1 →
        b = true) ∧
      (Bot.handleQueue s).2.queue = none ∧
      (Bot.handleQueue s).2.lock = none) := by
  constructor
  · intro hlk
    simp [Bot.handleQueue, hq, hlk]
  · intro hlk
    have hlkd : s.lock.getD false = false := hlk
    have hdrain := Bot.drainLoop_unlocked q s.lock hlk
    have hcond : ((Bot.drainLoop q.length q s.lock).2.1 = [] &&
        !((Bot.drainLoop q.length q s.lock).2.2.getD false)) = true := by
      rw [hdrain]
      by_cases h : q = [] <;> simp [h, hlkd]
    have hres : Bot.handleQueue s =
        (q.map (fun t => Bot.DrainEvent.processed t true),
         { queue := none, lock := none }) := by
      simp only [Bot.handleQueue, hq, hlk, Bool.false_eq_true, if_false,
        hcond, if_true]
      rw [hdrain]
    refine ⟨by rw [hres], ?_, by rw [hres], by rw [hres]⟩
    intro t b hmem
    rw [hres] at hmem
    simp only [List.mem_map] at hmem
    obtain ⟨t', _, heq⟩ := hmem
    cases heq
    rfl

/-- Witness for C1: a locked state is left untouched with nothing
processed; an unlocked two-task queue is drained in FIFO order and its
entry deleted. -/
theorem C1_handleQueue_lock_invariant_witness :
    Bot.handleQueue ⟨some [⟨"Hola"⟩], some true⟩ =
      ([], ⟨some [⟨"Hola"⟩], some true⟩) ∧
    (Bot.handleQueue ⟨some [⟨"Hola"⟩, ⟨"Quiero info"⟩], none⟩).1 =
      [⟨"Hola"⟩, ⟨"Quiero info"⟩].map
        (fun t => Bot.DrainEvent.processed t true) ∧
    (Bot.handleQueue
      ⟨some [⟨"Hola"⟩, ⟨"Quiero info"⟩], none⟩).2.queue = none := by
  refine ⟨(C1_handleQueue_lock_invariant ⟨some [⟨"Hola"⟩], some true⟩
    [⟨"Hola"⟩] rfl).1 rfl, ?_, ?_⟩
  · exact ((C1_handleQueue_lock_invariant
      ⟨some [⟨"Hola"⟩, ⟨"Quiero info"⟩], none⟩
      [⟨"Hola"⟩, ⟨"Quiero info"⟩] rfl).2 rfl).1
  · exact ((C1_handleQueue_lock_invariant
      ⟨some [⟨"Hola"⟩, ⟨"Quiero info"⟩], none⟩
      [⟨"Hola"⟩, ⟨"Quiero info"⟩] rfl).2 rfl).2.2.1

/-- C2: debounced aggregation in `mainFlow` (`app.ts`).  For a burst of
`k ≥ 1` messages from one conversation in which every message arrives
before the running 6-second inactivity timer expires (so each arrival
restarts the timer and no intermediate flush happens), the arrivals
themselves enqueue nothing, and the single timer expiry enqueues exactly
one `DispatchTask` whose body is the message bodies joined in arrival
order with the separator `"\n\n"`; the pending buffer is deleted by the
flush. -/
theorem C2_debounce_single_task (ms : List String) (hms : ms ≠ [])
    (q0 : Option (List Bot.DispatchTask)) :
    (ms.foldl Bot.onInboundMessage ⟨none, false, q0⟩).queue = q0 ∧
    Bot.onInactivityTimerFire (ms.foldl Bot.onInboundMessage ⟨none, false, q0⟩) =
      ⟨none, false,
       some ((q0.getD []) ++ [⟨String.intercalate "\n\n" ms⟩])⟩ := by
  obtain ⟨m, rest, rfl⟩ := List.exists_cons_of_ne_nil hms
  have hfold : (m :: rest).foldl Bot.onInboundMessage ⟨none, false, q0⟩ =
      ⟨some (m :: rest), true, q0⟩ := by
    simp only [List.foldl_cons, Bot.onInboundMessage]
    rw [show (none : Option (List String)).getD [] = [] from rfl]
    simp only [List.nil_append]
    rw [Bot.foldl_onInbound_buffer rest [m] true q0]
    simp
  refine ⟨by rw [hfold], ?_⟩
  rw [hfold]
  simp [Bot.onInactivityTimerFire]

/-- Witness for C2 at the spec's own example burst. -/
theorem C2_debounce_single_task_witness :
    (["Hola", "Quiero info"].foldl Bot.onInboundMessage
      ⟨none, false, none⟩).queue = none ∧
    Bot.onInactivityTimerFire
        (["Hola", "Quiero info"].foldl Bot.onInboundMessage
          ⟨none, false, none⟩) =
      ⟨none, false, some [⟨"Hola\n\nQuiero info"⟩]⟩ := by
  have h := C2_debounce_single_task ["Hola", "Quiero info"]
    (by simp) none
  refine ⟨h.1, ?_⟩
  rw [h.2]
  rfl

/-- C9: `GeminiHandler.processMessage` always resolves to an `AiResponse`
whose `text` field is a string (it is a total function into `AiResponse`):
when the backend call throws it resolves with the fixed apology string,
when the candidate list is absent or empty it resolves with the fixed
clarification string, and otherwise with the joined part texts; the
promise never rejects (totality of the embedding). -/
theorem C9_gemini_total (outcome : Bot.GeminiSendOutcome) :
    (outcome = .thrown →
      Bot.geminiProcessMessage outcome = ⟨Bot.geminiApology⟩) ∧
    ((outcome = .ok none ∨ outcome = .ok (some [])) →
      Bot.geminiProcessMessage outcome = ⟨Bot.geminiClarify⟩) ∧
    (∃ s : String, Bot.geminiProcessMessage outcome = ⟨s⟩) := by
  refine ⟨fun h => by subst h; rfl, fun h => ?_, ?_⟩
  · rcases h with h | h <;> subst h <;> rfl
  · exact ⟨(Bot.geminiProcessMessage outcome).text, rfl⟩

/-- Witness for C9 at a concrete outcome. -/
theorem C9_gemini_total_witness :
    Bot.geminiProcessMessage .thrown = ⟨Bot.geminiApology⟩ :=
  (C9_gemini_total .thrown).1 rfl

/-- C10: the polling loop of `OpenAiHandler.processMessage` exits only on
status `completed` or `failed`: if some retrieve observes one of those two
statuses the loop terminates (for sufficient fuel) with a terminal status
in that set, and if no retrieve ever observes one of them the loop runs
forever (no amount of fuel makes it return). -/
theorem C10_openai_poll_termination (statusAt : Nat → Bot.RunStatus) :
    (∀ k, (statusAt k = .completed ∨ statusAt k = .failed) →
      ∀ fuel, k ≤ fuel →
        ∃ s, Bot.openAiPollLoop statusAt 0 fuel = some s ∧
          (s = .completed ∨ s = .failed)) ∧
    ((∀ n, statusAt n ≠ .completed ∧ statusAt n ≠ .failed) →
      ∀ fuel, Bot.openAiPollLoop statusAt 0 fuel = none) := by
  constructor
  · -- termination when a terminal status is observed
    have key : ∀ fuel k n, k ≤ fuel →
        (statusAt (n + k) = .completed ∨ statusAt (n + k) = .failed) →
        ∃ s, Bot.openAiPollLoop statusAt n fuel = some s ∧
          (s = .completed ∨ s = .failed) := by
      intro fuel
      induction fuel with
      | zero =>
        intro k n hk hterm
        have hk0 : k = 0 := Nat.le_zero.mp hk
        subst hk0
        simp only [Nat.add_zero] at hterm
        refine ⟨statusAt n, ?_, hterm⟩
        have : Bot.pollContinues (statusAt n) = false := by
          rcases hterm with h | h <;> simp [Bot.pollContinues, h]
        simp [Bot.openAiPollLoop, this]
      | succ m ih =>
        intro k n hk hterm
        by_cases hc : Bot.pollContinues (statusAt n) = true
        · -- loop continues at n; the terminal index cannot be n itself
          have hkpos : k ≠ 0 := by
            intro h0
            subst h0
            simp only [Nat.add_zero] at hterm
            rcases hterm with h | h <;> simp [Bot.pollContinues, h] at hc
          obtain ⟨k', rfl⟩ := Nat.exists_eq_succ_of_ne_zero hkpos
          have hk' : k' ≤ m := Nat.lt_succ_iff.mp (Nat.lt_of_succ_le hk)
          have hterm' : statusAt ((n + 1) + k') = .completed ∨
              statusAt ((n + 1) + k') = .failed := by
            have : (n + 1) + k' = n + (k' + 1) := by omega
            rw [this]; exact hterm
          obtain ⟨s, hs, hss⟩ := ih k' (n + 1) hk' hterm'
          exact ⟨s, by simp [Bot.openAiPollLoop, hc, hs], hss⟩
        · -- loop exits at n
          have hc' : Bot.pollContinues (statusAt n) = false :=
            Bool.eq_false_iff.mpr hc
          refine ⟨statusAt n, by simp [Bot.openAiPollLoop, hc'], ?_⟩
          simp only [Bot.pollContinues, Bool.and_eq_false_iff,
            bne_eq_false_iff_eq, Bool.and_eq_true, bne_iff_ne] at hc'
          rcases hc' with h | h
          · left; exact not_not.mp (of_decide_eq_false h)
          · right; exact not_not.mp (of_decide_eq_false h)
    intro k hterm fuel hk
    exact key fuel k 0 hk (by simpa using hterm)
  · -- divergence when no terminal status is ever observed
    intro hnever
    have key : ∀ fuel n, Bot.openAiPollLoop statusAt n fuel = none := by
      intro fuel
      induction fuel with
      | zero =>
        intro n
        have := hnever n
        have hc : Bot.pollContinues (statusAt n) = true := by
          simp [Bot.pollContinues, this.1, this.2]
        simp [Bot.openAiPollLoop, hc]
      | succ m ih =>
        intro n
        have := hnever n
        have hc : Bot.pollContinues (statusAt n) = true := by
          simp [Bot.pollContinues, this.1, this.2]
        simp [Bot.openAiPollLoop, hc, ih]
    intro fuel
    exact key fuel 0

/-- Witness for C10: a run that is `completed` at the second retrieve
terminates the loop, and a run that stays `cancelled` forever never does. -/
theorem C10_openai_poll_termination_witness :
    (∃ s, Bot.openAiPollLoop
        (fun n => if n = 1 then .completed else .inProgress) 0 1 = some s ∧
      (s = .completed ∨ s = .failed)) ∧
    Bot.openAiPollLoop (fun _ => Bot.RunStatus.cancelled) 0 5 = none := by
  constructor
  · exact (C10_openai_poll_termination
      (fun n => if n = 1 then .completed else .inProgress)).1
      1 (by simp) 1 (le_refl 1)
  · exact (C10_openai_poll_termination (fun _ => Bot.RunStatus.cancelled)).2
      (fun n => by simp) 5

/-- C3: retry with exponential backoff in `getAssistantResponse` (the
retry variant of the dispatcher's AI-backend call, invoked for the task
at the head of the queue before the drain moves to the next task).  Any
thrown error — a timeout of the 60s race or a backend concurrency
conflict such as "another run is active" — leads to a retry of the same
call: the number of attempts is capped at `MAX_RETRIES = 3`, the backoff
before the n-th retry is `2^n * 1000` ms (2s, then 4s), the successive
backoff durations are strictly increasing, and when attempt 1 fails and
attempt 2 succeeds the result is attempt 2's response for the same
task. -/
theorem C3_retry_backoff (outcome : Nat → Option String) :
    (Bot.retryAttempts (Bot.getAssistantResponse none outcome).1).length ≤
      Bot.MAX_RETRIES ∧
    Bot.retryWaits (Bot.getAssistantResponse none outcome).1 =
      (List.range
        ((Bot.retryAttempts (Bot.getAssistantResponse none outcome).1).length
          - 1)).map (fun i => 2 ^ (i + 1) * 1000) ∧
    List.Chain' (· < ·)
      (Bot.retryWaits (Bot.getAssistantResponse none outcome).1) ∧
    (∀ s, outcome 1 = none → outcome 2 = some s →
      (Bot.getAssistantResponse none outcome).2 = some s ∧
      (Bot.getAssistantResponse none outcome).1 =
        [.attempt 1, .wait 2000, .attempt 2]) := by
  cases h1 : outcome 1 with
  | some s1 =>
    refine ⟨?_, ?_, ?_, ?_⟩ <;>
      simp [Bot.getAssistantResponse, Bot.getAssistantResponseAttempts,
        Bot.MAX_RETRIES, Bot.retryAttempts, Bot.retryWaits, h1]
  | none =>
    cases h2 : outcome 2 with
    | some s2 =>
      refine ⟨?_, ?_, ?_, ?_⟩ <;>
        simp [Bot.getAssistantResponse, Bot.getAssistantResponseAttempts,
          Bot.MAX_RETRIES, Bot.retryAttempts, Bot.retryWaits, h1, h2,
          List.range_succ]
    | none =>
      cases h3 : outcome 3 with
      | some s3 =>
        refine ⟨?_, ?_, ?_, ?_⟩ <;>
          simp [Bot.getAssistantResponse, Bot.getAssistantResponseAttempts,
            Bot.MAX_RETRIES, Bot.retryAttempts, Bot.retryWaits, h1, h2, h3,
            List.range_succ]
      | none =>
        refine ⟨?_, ?_, ?_, ?_⟩ <;>
          simp [Bot.getAssistantResponse, Bot.getAssistantResponseAttempts,
            Bot.MAX_RETRIES, Bot.retryAttempts, Bot.retryWaits, h1, h2, h3,
            List.range_succ]

/-- Witness for C3: attempt 1 fails, attempt 2 succeeds. -/
theorem C3_retry_backoff_witness :
    (Bot.getAssistantResponse none
      (fun n => if n = 2 then some "ok" else none)).2 = some "ok" ∧
    (Bot.getAssistantResponse none
      (fun n => if n = 2 then some "ok" else none)).1 =
      [.attempt 1, .wait 2000, .attempt 2] :=
  (C3_retry_backoff (fun n => if n = 2 then some "ok" else none)).2.2.2
    "ok" rfl rfl

/-- C4: self-echo suppression (`app.ts`).  Every outbound message
identifier recorded by the response-sending loop is inserted into
`botSentMessages` with a scheduled eviction 300000 ms (5 minutes) later:
membership holds for the inserted identifier exactly while the eviction
is pending, and a fresh insert is no longer a member once its retention
window has elapsed.  For any `messages.upsert` event carrying a recorded,
not-yet-evicted identifier (an outgoing message with text, not a status
broadcast), the listener classifies it as `selfEcho` — the `continue`
branch, which neither invokes `syncManualMessageToOpenAI` nor buffers the
message as a manual one. -/
theorem C4_self_echo_registry (reg : List (String × Nat)) (id : String)
    (now : Nat) (threads : List String) (t : Nat) (m : Bot.UpsertMsg)
    (b : String) :
    (Bot.botSentHas (Bot.botRecordSent reg id now) id t =
      (decide (t < now + 300000) || Bot.botSentHas reg id t)) ∧
    (∀ t', now + 300000 ≤ t' →
      Bot.botSentHas (Bot.botRecordSent [] id now) id t' = false) ∧
    (m.msgId = id → m.fromMe = true → m.hasMessage = true →
      m.body = some b → m.remoteJid ≠ "status@broadcast" →
      t < now + 300000 →
      Bot.upsertHandleMsg (Bot.botRecordSent reg id now) threads t m =
        .selfEcho) := by
  refine ⟨?_, ?_, ?_⟩
  · simp [Bot.botSentHas, Bot.botRecordSent]
  · intro t' ht'
    simp [Bot.botSentHas, Bot.botRecordSent, Nat.not_lt.mpr ht']
  · intro hid hfm hhm hb hjid ht
    have hhas : Bot.botSentHas (Bot.botRecordSent reg id now) m.msgId t =
        true := by
      rw [hid]
      simp [Bot.botSentHas, Bot.botRecordSent, ht]
    simp [Bot.upsertHandleMsg, hhm, hjid, hb, hfm, hhas]

/-- Witness for C4 at a concrete identifier and event. -/
theorem C4_self_echo_registry_witness :
    (Bot.botSentHas (Bot.botRecordSent [] "MSG1" 0) "MSG1" 100 =
      (decide ((100 : Nat) < 0 + 300000) ||
        Bot.botSentHas [] "MSG1" 100)) ∧
    (∀ t', 0 + 300000 ≤ t' →
      Bot.botSentHas (Bot.botRecordSent [] "MSG1" 0) "MSG1" t' = false) ∧
    Bot.upsertHandleMsg (Bot.botRecordSent [] "MSG1" 0) [] 100
      ⟨true, "573@s.whatsapp.net", true, some "hola", "MSG1"⟩ =
      .selfEcho := by
  have h := C4_self_echo_registry [] "MSG1" 0 [] 100
    ⟨true, "573@s.whatsapp.net", true, some "hola", "MSG1"⟩ "hola"
  exact ⟨h.1, h.2.1,
    h.2.2 rfl rfl rfl rfl (by decide) (by decide)⟩

/-- C5 counterexample: the claim "the Manual-Message Correlator's flush
path acquires the same per-conversation lock as the Dispatcher before
calling the AI backend's message-append primitive, so an operator
append is never executed while an automated dispatch is in flight" is
false of the code.  At a state whose dispatcher lock entry is `some true`
(an automated dispatch in flight for this conversation) and which has a
thread binding, `syncManualMessageToOpenAI` nevertheless performs the
assistant-role append, and the lock entry is neither acquired, checked
nor released: the state comes back identical, still `some true`. -/
theorem C5_lock_discipline_counterexample :
    (Bot.syncManualMessageToOpenAI
      ⟨[("573003913251@s.whatsapp.net", "thread_X")], some true, none, none⟩
      "573003913251@s.whatsapp.net" "Los precios son 400").2.1 =
        [.appendAssistant "Los precios son 400"] ∧
    (Bot.syncManualMessageToOpenAI
      ⟨[("573003913251@s.whatsapp.net", "thread_X")], some true, none, none⟩
      "573003913251@s.whatsapp.net" "Los precios son 400").2.2 =
        ⟨[("573003913251@s.whatsapp.net", "thread_X")], some true, none,
          none⟩ ∧
    (⟨[("573003913251@s.whatsapp.net", "thread_X")], some true, none,
      none⟩ : Bot.SyncState).userLock = some true := by
  refine ⟨?_, ?_, rfl⟩ <;> rfl

/-- C5 (amended): the correlator's injection path takes no lock at all —
`syncManualMessageToOpenAI` returns the state unchanged (in particular
the dispatcher's `userLocks` entry), its observable behaviour is
independent of the lock value, and the buffered variant's flush performs
its appends (system note then assistant content, the buffer joined with
`"\n\n"`) whenever a thread binding exists, with no lock anywhere in its
inputs; hence an operator-authored append can execute while an automated
dispatch for the same conversation is in flight. -/
theorem C5_sync_ignores_dispatcher_lock (st : Bot.SyncState)
    (jid content : String) (b : Option Bool)
    (tm : List (String × String)) (buf : Option (List String)) :
    ((Bot.syncManualMessageToOpenAI st jid content).2.2 = st) ∧
    ((Bot.syncManualMessageToOpenAI { st with userLock := b } jid
      content).1 = (Bot.syncManualMessageToOpenAI st jid content).1) ∧
    ((Bot.syncManualMessageToOpenAI { st with userLock := b } jid
      content).2.1 = (Bot.syncManualMessageToOpenAI st jid content).2.1) ∧
    (∀ tid msgs, Bot.getThreadId tm jid = some tid → buf = some msgs →
      msgs ≠ [] →
      (Bot.handleManualMessageFlush tm jid buf).1 =
        [.appendUser Bot.manualSyncNote,
         .appendAssistant (String.intercalate "\n\n" msgs)]) := by
  refine ⟨?_, ?_, ?_, ?_⟩
  · cases h : Bot.clientThreadsGet st.clientThreadIds jid <;>
      simp [Bot.syncManualMessageToOpenAI, h]
  · cases h : Bot.clientThreadsGet st.clientThreadIds jid <;>
      simp [Bot.syncManualMessageToOpenAI, h]
  · cases h : Bot.clientThreadsGet st.clientThreadIds jid <;>
      simp [Bot.syncManualMessageToOpenAI, h]
  · intro tid msgs htid hbuf hne
    subst hbuf
    have hlen : 0 < msgs.length := List.length_pos.mpr hne
    simp [Bot.handleManualMessageFlush, hlen,
      Bot.syncManualWithSystemNote, htid]

/-- Witness for the amended C5 at a concrete state with the lock held. -/
theorem C5_sync_ignores_dispatcher_lock_witness :
    ((Bot.syncManualMessageToOpenAI
      ⟨[("j@s", "thread_A")], some true, none, none⟩ "j@s" "hola").2.2 =
      ⟨[("j@s", "thread_A")], some true, none, none⟩) ∧
    (Bot.handleManualMessageFlush [("j", "thread_A")] "j@s"
      (some ["precio 400", "y 500"])).1 =
      [.appendUser Bot.manualSyncNote,
       .appendAssistant (String.intercalate "\n\n"
         ["precio 400", "y 500"])] := by
  have h := C5_sync_ignores_dispatcher_lock
    ⟨[("j@s", "thread_A")], some true, none, none⟩ "j@s" "hola"
    (some false) [("j", "thread_A")] (some ["precio 400", "y 500"])
  exact ⟨h.1, h.2.2.2 "thread_A" ["precio 400", "y 500"] rfl rfl
    (by simp)⟩

/-- C6: a manual message for a conversation with no thread binding is
dropped: `syncManualMessageToOpenAI` (`app.ts`) logs the warning, makes
no AI backend call, returns `false`, and leaves the whole conversation
state — thread bindings, buffers, queue, lock — exactly as it was; the
buffered variant's sync path behaves the same way. -/
theorem C6_manual_without_binding_dropped (st : Bot.SyncState)
    (jid content : String) (tm : List (String × String)) :
    (Bot.clientThreadsGet st.clientThreadIds jid = none →
      Bot.syncManualMessageToOpenAI st jid content =
        (false, [.warnNoThread], st)) ∧
    (Bot.getThreadId tm jid = none →
      Bot.syncManualWithSystemNote tm jid content =
        (false, [.warnNoThread])) := by
  constructor
  · intro h
    simp [Bot.syncManualMessageToOpenAI, h]
  · intro h
    simp [Bot.syncManualWithSystemNote, h]

/-- Witness for C6: empty binding maps. -/
theorem C6_manual_without_binding_dropped_witness :
    Bot.syncManualMessageToOpenAI ⟨[], none, some ["b"], some [⟨"t"⟩]⟩
      "j@s" "hola" =
      (false, [.warnNoThread], ⟨[], none, some ["b"], some [⟨"t"⟩]⟩) ∧
    Bot.syncManualWithSystemNote [] "j@s" "hola" =
      (false, [.warnNoThread]) := by
  have h := C6_manual_without_binding_dropped
    ⟨[], none, some ["b"], some [⟨"t"⟩]⟩ "j@s" "hola" []
  exact ⟨h.1 rfl, h.2 rfl⟩

/-- C7: backpressure in `welcomeFlow` (the bounded variant).  The
conversation's queue has maximum size `MAX_QUEUE_SIZE = 10`: an inbound
message arriving when the queue already holds at least `MAX_QUEUE_SIZE`
tasks is answered with the user-visible please-wait notice and not
enqueued (the queue is unchanged); below the bound it is enqueued; and
any queue within the bound stays within the bound, so the length never
grows beyond `MAX_QUEUE_SIZE`. -/
theorem C7_queue_bound (q : List Bot.DispatchTask) (t : Bot.DispatchTask) :
    (q.length ≥ Bot.MAX_QUEUE_SIZE →
      Bot.welcomeFlowEnqueue (some q) t =
        (.rejected Bot.queueFullNotice, q)) ∧
    (q.length < Bot.MAX_QUEUE_SIZE →
      Bot.welcomeFlowEnqueue (some q) t = (.enqueued, q ++ [t])) ∧
    (q.length ≤ Bot.MAX_QUEUE_SIZE →
      (Bot.welcomeFlowEnqueue (some q) t).2.length ≤
        Bot.MAX_QUEUE_SIZE) := by
  refine ⟨?_, ?_, ?_⟩
  · intro h
    simp [Bot.welcomeFlowEnqueue, h]
  · intro h
    simp [Bot.welcomeFlowEnqueue, Nat.not_le.mpr h]
  · intro h
    by_cases hge : q.length ≥ Bot.MAX_QUEUE_SIZE
    · simp [Bot.welcomeFlowEnqueue, hge]
      omega
    · simp [Bot.welcomeFlowEnqueue, hge]
      omega

/-- Witness for C7: a full queue of 10 tasks rejects with the notice; an
empty queue enqueues. -/
theorem C7_queue_bound_witness :
    Bot.welcomeFlowEnqueue (some (List.replicate 10 ⟨"m"⟩)) ⟨"nuevo"⟩ =
      (.rejected Bot.queueFullNotice, List.replicate 10 ⟨"m"⟩) ∧
    Bot.welcomeFlowEnqueue (some []) ⟨"nuevo"⟩ = (.enqueued, [⟨"nuevo"⟩]) := by
  refine ⟨(C7_queue_bound (List.replicate 10 ⟨"m"⟩) ⟨"nuevo"⟩).1
    (by simp [Bot.MAX_QUEUE_SIZE]), ?_⟩
  have h := (C7_queue_bound [] ⟨"nuevo"⟩).2.1 (by simp [Bot.MAX_QUEUE_SIZE])
  simpa using h

set_option maxRecDepth 10000 in
/-- C8 counterexample: the claim "for a 900-character single-paragraph
input with no sentence boundary near the limit, every produced chunk is
within the configured max length" is false.  On the 900-character
single-paragraph input with no sentence boundary at all (900 copies of
`'a'`), `splitIntoHumanChunks` produces a chunk longer than
`MAX_MESSAGE_LENGTH = 250`: the oversize sentence is pushed whole, never
hard-split. -/
theorem C8_split_budget_counterexample :
    (Bot.splitIntoHumanChunks (String.mk (List.replicate 900 'a'))).any
      (fun c => Bot.MAX_MESSAGE_LENGTH < c.length) = true := by decide

set_option maxRecDepth 10000 in
/-- C8 (amended): the splitting function splits on double-line-break
paragraph boundaries first and further splits oversize paragraphs on
sentence boundaries, accumulating sentences within the length and
line-count budgets — but a sentence that alone exceeds a budget is
emitted whole as its own, possibly oversize, chunk.  Concretely:
`"hola\n\nmundo"` splits at the paragraph boundary; an oversize
paragraph of 25 short sentences is split into more than one chunk, each
within `MAX_MESSAGE_LENGTH`; and the 900-character single-paragraph
input with no sentence boundary comes back as exactly one chunk equal to
the whole input — content preserved with no characters lost or
duplicated, but 900 characters long, exceeding the 250-character
budget. -/
theorem C8_split_behaviour :
    (Bot.splitIntoHumanChunks "hola\n\nmundo" = ["hola", "mundo"]) ∧
    ((Bot.splitIntoHumanChunks (String.intercalate ""
        (List.replicate 25 "abcdefghi. "))).all
      (fun c => c.length ≤ Bot.MAX_MESSAGE_LENGTH) = true) ∧
    (1 < (Bot.splitIntoHumanChunks (String.intercalate ""
        (List.replicate 25 "abcdefghi. "))).length) ∧
    (Bot.splitIntoHumanChunks (String.mk (List.replicate 900 'a')) =
      [String.mk (List.replicate 900 'a')]) := by
  refine ⟨by decide, by decide, by decide, by decide⟩
